import Mathlib

/-!
Verification of the tax computation core of the AI Tax Agent repository
(`tax_logic.py`, `app.py`).

Modelling conventions:
* Monetary amounts are rationals (`ℚ`).  Python's `round(x, 2)` (round
  half to even at two decimal places, per the runtime's default rounding
  of `float`) is modelled exactly on rationals by `round2` below.
* The bracket upper bound `float('inf')` is modelled as `Option.none`;
  a finite bound `h` is `Option.some h`.  The comparison `income > high`
  is never true against the infinite sentinel, exactly as in the source.
* Python dictionaries keyed by filing-status strings are modelled as
  functions `String → Option _` written as the same if-chains of key
  comparisons; `.get(k, d)` becomes `(f k).getD d`.
* `str.lower()` followed by `.replace(" ", "_")` is modelled by `canon`,
  a character-wise map (the pattern is a single character, so `replace`
  is exactly a map over the characters of the lowered string).
-/

/-- Round half to even to the nearest integer, the rounding used by
Python's `round`. -/
def rhe (x : ℚ) : ℤ :=
  if x - ⌊x⌋ < 1/2 then ⌊x⌋
  else if 1/2 < x - ⌊x⌋ then ⌊x⌋ + 1
  else if ⌊x⌋ % 2 = 0 then ⌊x⌋ else ⌊x⌋ + 1

/-- `round(x, 2)`: round half to even at two decimal places. -/
def round2 (x : ℚ) : ℚ := (rhe (x * 100) : ℚ) / 100

/-- One bracket band `(low, high, rate)` from `TAX_BRACKETS_2024`;
`high = none` models `float('inf')`. -/
structure Band where
  low : ℚ
  high : Option ℚ
  rate : ℚ
deriving DecidableEq, Repr

/-- `STANDARD_DEDUCTION` dictionary from `tax_logic.py`. -/
def STANDARD_DEDUCTION : String → Option ℚ := fun s =>
  if s = "single" then some 14600
  else if s = "married_filing_jointly" then some 29200
  else if s = "married_filing_separately" then some 14600
  else if s = "head_of_household" then some 21900
  else none

/-- The `"single"` entry of `TAX_BRACKETS_2024`. -/
def singleBrackets : List Band :=
  [⟨0, some 11000, 0.10⟩, ⟨11000, some 44725, 0.12⟩, ⟨44725, some 95375, 0.22⟩,
   ⟨95375, some 182100, 0.24⟩, ⟨182100, some 231250, 0.32⟩,
   ⟨231250, some 578125, 0.35⟩, ⟨578125, none, 0.37⟩]

/-- The `"married_filing_jointly"` entry of `TAX_BRACKETS_2024`. -/
def mfjBrackets : List Band :=
  [⟨0, some 22000, 0.10⟩, ⟨22000, some 89450, 0.12⟩, ⟨89450, some 190750, 0.22⟩,
   ⟨190750, some 364200, 0.24⟩, ⟨364200, some 462500, 0.32⟩,
   ⟨462500, some 693750, 0.35⟩, ⟨693750, none, 0.37⟩]

/-- The `"married_filing_separately"` entry of `TAX_BRACKETS_2024`. -/
def mfsBrackets : List Band :=
  [⟨0, some 11000, 0.10⟩, ⟨11000, some 44725, 0.12⟩, ⟨44725, some 95375, 0.22⟩,
   ⟨95375, some 182100, 0.24⟩, ⟨182100, some 231250, 0.32⟩,
   ⟨231250, some 346875, 0.35⟩, ⟨346875, none, 0.37⟩]

/-- The `"head_of_household"` entry of `TAX_BRACKETS_2024`. -/
def hohBrackets : List Band :=
  [⟨0, some 15700, 0.10⟩, ⟨15700, some 59850, 0.12⟩, ⟨59850, some 95350, 0.22⟩,
   ⟨95350, some 182100, 0.24⟩, ⟨182100, some 231250, 0.32⟩,
   ⟨231250, some 578100, 0.35⟩, ⟨578100, none, 0.37⟩]

/-- `TAX_BRACKETS_2024` dictionary from `tax_logic.py`. -/
def TAX_BRACKETS_2024 : String → Option (List Band) := fun s =>
  if s = "single" then some singleBrackets
  else if s = "married_filing_jointly" then some mfjBrackets
  else if s = "married_filing_separately" then some mfsBrackets
  else if s = "head_of_household" then some hohBrackets
  else none

/-- The bracket list actually used by `calculate_tax`:
`if filing_status not in TAX_BRACKETS_2024: filing_status = "single"`. -/
def bracketsOf (filing_status : String) : List Band :=
  match TAX_BRACKETS_2024 filing_status with
  | some bs => bs
  | none => singleBrackets

/-- The accumulation loop of `calculate_tax`:
`for low, high, rate in brackets: if income > high: tax += (high-low)*rate
else: tax += (income-low)*rate; break`.  Against the infinite sentinel
(`high = none`) the `income > high` test is false, so the loop breaks. -/
def rawTax : List Band → ℚ → ℚ
  | [], _ => 0
  | b :: rest, income =>
    match b.high with
    | some h =>
      if h < income then (h - b.low) * b.rate + rawTax rest income
      else (income - b.low) * b.rate
    | none => (income - b.low) * b.rate

/-- `calculate_tax(income, filing_status)` from `tax_logic.py`. -/
def calculate_tax (income : ℚ) (filing_status : String) : ℚ :=
  round2 (rawTax (bracketsOf filing_status) income)

/-- The result dictionary of `compute_liability`. -/
structure TaxSummary where
  totalIncome : ℚ
  standardDeduction : ℚ
  taxableIncome : ℚ
  federalTaxOwed : ℚ
  federalTaxWithheld : ℚ
  refundOrBalanceDue : ℚ
deriving DecidableEq, Repr

/-- `.lower().replace(" ", "_")` applied to the status string.  The
replacement pattern is the single character `' '`, so the composite is a
character-wise map of the string. -/
def canon (s : String) : String :=
  String.mk (s.data.map fun c =>
    let c' := c.toLower
    if c' = ' ' then '_' else c')

/-- Body of `compute_liability` after the status string has been
canonicalised; `14600` is `STANDARD_DEDUCTION["single"]`, the default of
the `.get` call. -/
def liabilityCore (fs : String) (incomes : List ℚ) (withheld : ℚ) : TaxSummary :=
  let total_income := incomes.sum
  let deduction := (STANDARD_DEDUCTION fs).getD 14600
  let taxable_income := max 0 (total_income - deduction)
  let tax := calculate_tax taxable_income fs
  let refund := round2 (withheld - tax)
  { totalIncome := round2 total_income
    standardDeduction := deduction
    taxableIncome := round2 taxable_income
    federalTaxOwed := round2 tax
    federalTaxWithheld := round2 withheld
    refundOrBalanceDue := refund }

/-- `compute_liability(filing_status, incomes, withheld)` from
`tax_logic.py`. -/
def compute_liability (filing_status : String) (incomes : List ℚ) (withheld : ℚ) :
    TaxSummary :=
  liabilityCore (canon filing_status) incomes withheld

/-!  ## Basic facts about `rhe` and `round2` -/

theorem rhe_intCast (n : ℤ) : rhe (n : ℚ) = n := by
  unfold rhe
  norm_num

theorem floor_le_rhe (x : ℚ) : ⌊x⌋ ≤ rhe x := by
  unfold rhe
  split_ifs <;> omega

theorem rhe_le_floor_add_one (x : ℚ) : rhe x ≤ ⌊x⌋ + 1 := by
  unfold rhe
  split_ifs <;> omega

theorem rhe_mono {x y : ℚ} (hxy : x ≤ y) : rhe x ≤ rhe y := by
  rcases lt_or_le ⌊x⌋ ⌊y⌋ with hf | hf
  · calc rhe x ≤ ⌊x⌋ + 1 := rhe_le_floor_add_one x
    _ ≤ ⌊y⌋ := by omega
    _ ≤ rhe y := floor_le_rhe y
  · have hf' : ⌊x⌋ = ⌊y⌋ := le_antisymm (Int.floor_mono hxy) hf
    unfold rhe
    rw [hf']
    split_ifs <;> first | omega | linarith

theorem rhe_neg_of_lt {x : ℚ} (hx : x < -(1/2)) : rhe x < 0 := by
  have h1 : (⌊x⌋ : ℚ) ≤ x := Int.floor_le x
  have h2 : x < ⌊x⌋ + 1 := Int.lt_floor_add_one x
  have hf1 : (⌊x⌋ : ℚ) < -(1/2) := lt_of_le_of_lt h1 hx
  have hfneg : ⌊x⌋ ≤ -1 := by
    have h0 : (⌊x⌋ : ℚ) < 0 := by linarith
    have h0' : ⌊x⌋ < 0 := by exact_mod_cast h0
    omega
  unfold rhe
  split_ifs with hc1 hc2 hc3
  · omega
  · -- fractional part exceeds one half, so the floor is at most -2
    have : (⌊x⌋ : ℚ) < x - 1/2 := by linarith
    have : (⌊x⌋ : ℚ) < -1 := by linarith
    have : ⌊x⌋ < -1 := by exact_mod_cast this
    omega
  · omega
  · -- exact tie: x = ⌊x⌋ + 1/2 < -1/2 forces ⌊x⌋ < -1
    have hx2 : x - ⌊x⌋ = 1/2 := le_antisymm (not_lt.mp hc2) (not_lt.mp hc1)
    have : (⌊x⌋ : ℚ) < -1 := by linarith
    have : ⌊x⌋ < -1 := by exact_mod_cast this
    omega

theorem round2_cent (n : ℤ) : round2 ((n : ℚ) / 100) = (n : ℚ) / 100 := by
  unfold round2
  rw [show ((n : ℚ) / 100 * 100) = (n : ℚ) from by field_simp]
  rw [rhe_intCast]

theorem round2_idem (x : ℚ) : round2 (round2 x) = round2 x := round2_cent (rhe (x * 100))

theorem round2_mono {x y : ℚ} (hxy : x ≤ y) : round2 x ≤ round2 y := by
  unfold round2
  have h : rhe (x * 100) ≤ rhe (y * 100) :=
    rhe_mono (by linarith)
  have h' : ((rhe (x * 100) : ℤ) : ℚ) ≤ ((rhe (y * 100) : ℤ) : ℚ) := by exact_mod_cast h
  linarith

theorem round2_zero : round2 0 = 0 := by
  unfold round2
  rw [show ((0 : ℚ) * 100) = ((0 : ℤ) : ℚ) from by norm_num, rhe_intCast]
  norm_num

theorem round2_nonneg {x : ℚ} (hx : 0 ≤ x) : 0 ≤ round2 x := by
  have := round2_mono hx
  rwa [round2_zero] at this

theorem round2_neg_of_lt {x : ℚ} (hx : x < -(1/200)) : round2 x < 0 := by
  unfold round2
  have h : rhe (x * 100) < 0 := rhe_neg_of_lt (by linarith)
  have h' : ((rhe (x * 100) : ℤ) : ℚ) < 0 := by exact_mod_cast h
  linarith


/-!  ## Structural invariants of bracket lists -/

/-- All rates in the list are non-negative. -/
def ratesOkB (l : List Band) : Bool :=
  l.all fun b => decide (0 ≤ b.rate)

/-- Contiguity invariant used by the loop lemmas: starting from `x`, each
band's lower bound equals `x`, a finite upper bound is strictly above it,
and the next band starts at that upper bound. -/
def chainFromB : ℚ → List Band → Bool
  | _, [] => true
  | x, b :: rest =>
    b.low == x &&
      (match b.high with
       | some h => decide (x < h) && chainFromB h rest
       | none => true)

theorem rawTax_nonneg (l : List Band) (x b : ℚ) (hr : ratesOkB l = true)
    (hc : chainFromB x l = true) (hxb : x ≤ b) : 0 ≤ rawTax l b := by
  induction l generalizing x with
  | nil => simp [rawTax]
  | cons bd rest ih =>
    simp only [ratesOkB, List.all_cons, Bool.and_eq_true, decide_eq_true_eq] at hr
    obtain ⟨hr0, hrrest⟩ := hr
    simp only [chainFromB, Bool.and_eq_true, beq_iff_eq] at hc
    obtain ⟨hlow, hc'⟩ := hc
    cases hh : bd.high with
    | some h =>
      rw [hh] at hc'
      simp only [Bool.and_eq_true, decide_eq_true_eq] at hc'
      obtain ⟨hxh, hcrest⟩ := hc'
      simp only [rawTax, hh]
      split_ifs with hlt
      · have h1 : 0 ≤ (h - bd.low) * bd.rate := by
          apply mul_nonneg _ hr0
          rw [hlow]
          linarith
        have h2 : 0 ≤ rawTax rest b := ih h hrrest hcrest (le_of_lt hlt)
        linarith
      · apply mul_nonneg _ hr0
        rw [hlow]
        linarith
    | none =>
      simp only [rawTax, hh]
      apply mul_nonneg _ hr0
      rw [hlow]
      linarith

theorem rawTax_mono (l : List Band) (x a b : ℚ) (hr : ratesOkB l = true)
    (hc : chainFromB x l = true) (hxa : x ≤ a) (hab : a ≤ b) :
    rawTax l a ≤ rawTax l b := by
  induction l generalizing x with
  | nil => simp [rawTax]
  | cons bd rest ih =>
    simp only [ratesOkB, List.all_cons, Bool.and_eq_true, decide_eq_true_eq] at hr
    obtain ⟨hr0, hrrest⟩ := hr
    have hrrest' : ratesOkB rest = true := by
      simp only [ratesOkB]
      exact hrrest
    simp only [chainFromB, Bool.and_eq_true, beq_iff_eq] at hc
    obtain ⟨hlow, hc'⟩ := hc
    cases hh : bd.high with
    | some h =>
      rw [hh] at hc'
      simp only [Bool.and_eq_true, decide_eq_true_eq] at hc'
      obtain ⟨hxh, hcrest⟩ := hc'
      simp only [rawTax, hh]
      split_ifs with ha hb hb
      · -- both incomes exceed the band: recurse
        exact add_le_add_left (ih h hrrest' hcrest (le_of_lt ha)) _
      · linarith
      · -- a stops in this band, b goes past it
        have h1 : (a - bd.low) * bd.rate ≤ (h - bd.low) * bd.rate := by
          apply mul_le_mul_of_nonneg_right _ hr0
          linarith
        have h2 : 0 ≤ rawTax rest b := rawTax_nonneg rest h b hrrest' hcrest (le_of_lt hb)
        linarith
      · apply mul_le_mul_of_nonneg_right _ hr0
        linarith
    | none =>
      simp only [rawTax, hh]
      apply mul_le_mul_of_nonneg_right _ hr0
      linarith

theorem singleBrackets_ok :
    ratesOkB singleBrackets = true ∧ chainFromB 0 singleBrackets = true := by
  constructor <;> · simp [ratesOkB, chainFromB, singleBrackets]; norm_num

theorem mfjBrackets_ok :
    ratesOkB mfjBrackets = true ∧ chainFromB 0 mfjBrackets = true := by
  constructor <;> · simp [ratesOkB, chainFromB, mfjBrackets]; norm_num

theorem mfsBrackets_ok :
    ratesOkB mfsBrackets = true ∧ chainFromB 0 mfsBrackets = true := by
  constructor <;> · simp [ratesOkB, chainFromB, mfsBrackets]; norm_num

theorem hohBrackets_ok :
    ratesOkB hohBrackets = true ∧ chainFromB 0 hohBrackets = true := by
  constructor <;> · simp [ratesOkB, chainFromB, hohBrackets]; norm_num

theorem bracketsOf_ok (fs : String) :
    ratesOkB (bracketsOf fs) = true ∧ chainFromB 0 (bracketsOf fs) = true := by
  unfold bracketsOf TAX_BRACKETS_2024
  split_ifs <;>
    first
      | exact singleBrackets_ok
      | exact mfjBrackets_ok
      | exact mfsBrackets_ok
      | exact hohBrackets_ok

/-- Every bracket list the code can select starts with a band
`(0, some h, 0.10)` with `0 < h`. -/
theorem bracketsOf_shape (fs : String) :
    ∃ h rest, bracketsOf fs = Band.mk 0 (some h) 0.10 :: rest ∧ 0 < h := by
  unfold bracketsOf TAX_BRACKETS_2024
  split_ifs <;>
    first
      | exact ⟨11000, _, rfl, by norm_num⟩
      | exact ⟨22000, _, rfl, by norm_num⟩
      | exact ⟨15700, _, rfl, by norm_num⟩

/-!  ## Continuity at bracket boundaries (C9)

`rawTaxGE` assigns an income lying exactly on a bracket edge to the
*upper* band (`income ≥ high` keeps accumulating), which is the limit of
the source computation as the income approaches the edge from above:
full lower bands plus `(income − lowerBound) × rate` with
`income − lowerBound → 0`.  Agreement of `rawTax` and `rawTaxGE` at every
income is exactly the absence of a jump at every edge. -/

def rawTaxGE : List Band → ℚ → ℚ
  | [], _ => 0
  | b :: rest, income =>
    match b.high with
    | some h =>
      if h ≤ income then (h - b.low) * b.rate + rawTaxGE rest income
      else (income - b.low) * b.rate
    | none => (income - b.low) * b.rate

theorem rawTaxGE_at_start (l : List Band) (x : ℚ) (hc : chainFromB x l = true) :
    rawTaxGE l x = 0 := by
  cases l with
  | nil => simp [rawTaxGE]
  | cons bd rest =>
    simp only [chainFromB, Bool.and_eq_true, beq_iff_eq] at hc
    obtain ⟨hlow, hc'⟩ := hc
    cases hh : bd.high with
    | some h =>
      rw [hh] at hc'
      simp only [Bool.and_eq_true, decide_eq_true_eq] at hc'
      simp only [rawTaxGE, hh]
      rw [if_neg (by linarith [hc'.1])]
      rw [hlow]
      ring
    | none =>
      simp only [rawTaxGE, hh]
      rw [hlow]
      ring

theorem rawTax_eq_rawTaxGE (l : List Band) (x inc : ℚ)
    (hc : chainFromB x l = true) : rawTax l inc = rawTaxGE l inc := by
  induction l generalizing x with
  | nil => simp [rawTax, rawTaxGE]
  | cons bd rest ih =>
    simp only [chainFromB, Bool.and_eq_true, beq_iff_eq] at hc
    obtain ⟨hlow, hc'⟩ := hc
    cases hh : bd.high with
    | some h =>
      rw [hh] at hc'
      simp only [Bool.and_eq_true, decide_eq_true_eq] at hc'
      obtain ⟨hxh, hcrest⟩ := hc'
      simp only [rawTax, rawTaxGE, hh]
      rcases lt_trichotomy h inc with hlt | heq | hgt
      · rw [if_pos hlt, if_pos (le_of_lt hlt), ih h hcrest]
      · subst heq
        rw [if_neg (lt_irrefl h), if_pos (le_refl h),
          rawTaxGE_at_start rest h hcrest]
        ring
      · rw [if_neg (by linarith), if_neg (by linarith)]
    | none =>
      simp only [rawTax, rawTaxGE, hh]

/-!  ## The spec's marginal-tax formula (C1)

`specMarginalTax` is written from the spec's words, not from the loop:
sum `(upperBound − lowerBound) × rate` over the initial run of bands
whose upper bound lies strictly below the income, then add
`(income − lowerBound) × rate` for the first band whose upper bound is
at or above the income (the unbounded sentinel counts as above) and
stop. -/

/-- A band's upper bound lies strictly below the income (never true of
the unbounded sentinel). -/
def bandBelowB (inc : ℚ) (b : Band) : Bool :=
  match b.high with
  | some h => decide (h < inc)
  | none => false

/-- The full-band amount `(upperBound − lowerBound) × rate`. -/
def bandFull (b : Band) : ℚ :=
  match b.high with
  | some h => (h - b.low) * b.rate
  | none => 0

/-- The spec's description of the progressive marginal tax. -/
def specMarginalTax (l : List Band) (inc : ℚ) : ℚ :=
  ((l.takeWhile (bandBelowB inc)).map bandFull).sum +
    match l.find? (fun b => ! bandBelowB inc b) with
    | some b => (inc - b.low) * b.rate
    | none => 0

theorem rawTax_eq_specMarginalTax (l : List Band) (inc : ℚ) :
    rawTax l inc = specMarginalTax l inc := by
  induction l with
  | nil => simp [rawTax, specMarginalTax]
  | cons bd rest ih =>
    cases hh : bd.high with
    | some h =>
      by_cases hlt : h < inc
      · have hb : bandBelowB inc bd = true := by
          simp [bandBelowB, hh, hlt]
        simp only [rawTax, hh, if_pos hlt, ih]
        simp only [specMarginalTax, List.takeWhile_cons, List.find?_cons, hb,
          Bool.not_true, if_true, List.map_cons, List.sum_cons, bandFull, hh]
        ring
      · have hb : bandBelowB inc bd = false := by
          simp [bandBelowB, hh, hlt]
        simp only [rawTax, hh, if_neg hlt]
        simp [specMarginalTax, List.takeWhile_cons, List.find?_cons, hb]
    | none =>
      have hb : bandBelowB inc bd = false := by
        simp [bandBelowB, hh]
      simp only [rawTax, hh]
      simp [specMarginalTax, List.takeWhile_cons, List.find?_cons, hb]

/-!  ## Tie-case evaluations of `rhe` needed for concrete scenarios -/

theorem rhe_half : rhe (1/2) = 0 := by
  unfold rhe
  rw [show ⌊(1/2 : ℚ)⌋ = 0 from by norm_num [Int.floor_eq_iff]]
  norm_num

theorem rhe_neg_half : rhe (-(1/2)) = 0 := by
  unfold rhe
  rw [show ⌊(-(1/2) : ℚ)⌋ = -1 from by norm_num [Int.floor_eq_iff]]
  norm_num

theorem rhe_neg_tenth : rhe (-(1/10)) = 0 := by
  unfold rhe
  rw [show ⌊(-(1/10) : ℚ)⌋ = -1 from by norm_num [Int.floor_eq_iff]]
  norm_num

/-- `round2 a = a` whenever `a` is a whole number of cents. -/
theorem round2_eq_self {a : ℚ} (n : ℤ) (h : a * 100 = (n : ℚ)) : round2 a = a := by
  unfold round2
  rw [h, rhe_intCast, ← h]
  ring

/-- Reconstructing a difference from already-rounded cent amounts agrees
with rounding the unrounded difference. -/
theorem round2_sub_round2 {w t : ℚ} (n : ℤ) (hw : w = (n : ℚ) / 100)
    (ht : round2 t = t) : round2 (round2 w - round2 t) = round2 (w - t) := by
  rw [ht, hw, round2_cent]

/-!  ## The field normalizer `to_float` from `app.py`

`to_float` guards `value is not None`, applies the Python builtin
`float(value)`, and returns `0.0` on `TypeError`/`ValueError`.  Python
values that can reach it are modelled by `PyVal`; the builtin `float`
itself (a language primitive, not repository code) is modelled by
`pyFloat`, with string conversion restricted to optional-sign decimal
literals with an optional fractional part — the cases the claims
exercise (exponents, `inf`/`nan` and digit underscores are outside the
model). -/

inductive PyVal where
  | null
  | num (q : ℚ)
  | str (s : String)
  | obj
deriving DecidableEq

/-- Numeric value of a digit string, most significant digit first. -/
def digitsVal (l : List Char) : ℕ :=
  l.foldl (fun acc c => 10 * acc + (c.toNat - '0'.toNat)) 0

/-- Leading and trailing spaces removed (Python's `float` ignores
surrounding whitespace). -/
def stripSpaces (l : List Char) : List Char :=
  ((l.dropWhile (· = ' ')).reverse.dropWhile (· = ' ')).reverse

/-- Unsigned decimal literal: digits, optionally followed by `.` and more
digits, with at least one digit present. -/
def parseUnsigned (l : List Char) : Option ℚ :=
  let intPart := l.takeWhile Char.isDigit
  let rest := l.dropWhile Char.isDigit
  match rest with
  | [] => if intPart.isEmpty then Option.none else some (digitsVal intPart)
  | c :: frac =>
    if c = '.' && frac.all Char.isDigit && !(intPart.isEmpty && frac.isEmpty) then
      some ((digitsVal intPart : ℚ) + (digitsVal frac : ℚ) / 10 ^ frac.length)
    else Option.none

/-- Python's `float` on a string: optional sign, then an unsigned decimal
literal. -/
def parseFloat (s : String) : Option ℚ :=
  match stripSpaces s.data with
  | [] => parseUnsigned []
  | c :: rest =>
    if c = '+' then parseUnsigned rest
    else if c = '-' then (parseUnsigned rest).map (fun q => -q)
    else parseUnsigned (c :: rest)

/-- Python's `float(value)`: `none` models a raised
`TypeError`/`ValueError`. -/
def pyFloat : PyVal → Option ℚ
  | .null => Option.none
  | .num q => some q
  | .str s => parseFloat s
  | .obj => Option.none

/-- `to_float(value)` from `app.py`: `float(value) if value is not None
else 0.0`, with any exception caught and turned into `0.0`. -/
def to_float (v : PyVal) : ℚ :=
  match v with
  | .null => 0
  | v' => (pyFloat v').getD 0

/-!  ## Claim theorems -/

/-- C1: for every non-negative income and each of the four known filing
statuses, `calculate_tax` returns, rounded to 2 decimal places, the
spec's progressive marginal tax: the full amount
`(upperBound − lowerBound) × rate` for each band whose upper bound lies
strictly below the income, plus `(income − lowerBound) × rate` for the
first band whose upper bound is at or above the income, stopping there
(`specMarginalTax`). -/
theorem calculate_tax_matches_spec (fs : String) (inc : ℚ)
    (hfs : (TAX_BRACKETS_2024 fs).isSome = true) (h0 : 0 ≤ inc) :
    calculate_tax inc fs = round2 (specMarginalTax (bracketsOf fs) inc) := by
  unfold calculate_tax
  rw [rawTax_eq_specMarginalTax]

/-- Witness for C1 at `fs = "single"`, `inc = 60000`. -/
theorem calculate_tax_matches_spec_witness :
    (TAX_BRACKETS_2024 "single").isSome = true ∧ (0 : ℚ) ≤ 60000 ∧
      calculate_tax 60000 "single" =
        round2 (specMarginalTax (bracketsOf "single") 60000) :=
  ⟨rfl, by norm_num, calculate_tax_matches_spec "single" 60000 rfl (by norm_num)⟩

/-- C5: for every filing-status string, `calculate_tax` is monotone
non-decreasing in the income argument on non-negative incomes. -/
theorem calculate_tax_monotone (fs : String) (a b : ℚ) (h0 : 0 ≤ a)
    (hab : a ≤ b) : calculate_tax a fs ≤ calculate_tax b fs := by
  unfold calculate_tax
  exact round2_mono
    (rawTax_mono (bracketsOf fs) 0 a b (bracketsOf_ok fs).1 (bracketsOf_ok fs).2 h0 hab)

/-- Witness for C5 at `fs = "single"`, `a = 0`, `b = 100`. -/
theorem calculate_tax_monotone_witness :
    (0 : ℚ) ≤ 0 ∧ (0 : ℚ) ≤ 100 ∧
      calculate_tax 0 "single" ≤ calculate_tax 100 "single" :=
  ⟨le_refl 0, by norm_num, calculate_tax_monotone "single" 0 100 (le_refl 0) (by norm_num)⟩

/-- Structural validity of a bracket table anchored at `x`: each band's
lower bound is `x` (so consecutive bands are contiguous,
`band[i].upperBound = band[i+1].lowerBound`, and bands are ascending and
non-overlapping), every rate lies in `[0, 1)`, and the final band — and
only the final band — carries the unbounded sentinel. -/
def bandsOkFrom : ℚ → List Band → Bool
  | _, [] => false
  | x, b :: rest =>
    b.low == x && decide (0 ≤ b.rate) && decide (b.rate < 1) &&
      match b.high, rest with
      | Option.none, [] => true
      | some h, _ :: _ => decide (x < h) && bandsOkFrom h rest
      | _, _ => false

/-- A bracket table is valid when it is anchored at a first lower bound
of `0`. -/
def bracketTableOk (l : List Band) : Bool := bandsOkFrom 0 l

/-- C6: all four static bracket tables are ordered ascending,
non-overlapping and contiguous, start at lower bound 0, end with the
unbounded sentinel, and have every rate in `[0, 1)`. -/
theorem tax_brackets_2024_valid :
    bracketTableOk (bracketsOf "single") = true ∧
    bracketTableOk (bracketsOf "married_filing_jointly") = true ∧
    bracketTableOk (bracketsOf "married_filing_separately") = true ∧
    bracketTableOk (bracketsOf "head_of_household") = true := by
  refine ⟨?_, ?_, ?_, ?_⟩ <;>
    · simp [bracketTableOk, bandsOkFrom, bracketsOf, TAX_BRACKETS_2024,
        singleBrackets, mfjBrackets, mfsBrackets, hohBrackets]
      norm_num

/-- C7: for every status string, income list and withheld amount, the
stored `Taxable Income` equals `round2 (max 0 (totalIncome − deduction))`
and is never negative. -/
theorem taxable_income_nonneg (fs : String) (xs : List ℚ) (w : ℚ) :
    (compute_liability fs xs w).taxableIncome =
      round2 (max 0 (xs.sum - (compute_liability fs xs w).standardDeduction)) ∧
    0 ≤ (compute_liability fs xs w).taxableIncome := by
  exact ⟨rfl, round2_nonneg (le_max_left _ _)⟩

/-- The variant of `calculate_tax` that charges an income sitting exactly
on a bracket edge to the upper band — the limit of `calculate_tax` from
above at that edge. -/
def calculate_tax_from_above (income : ℚ) (filing_status : String) : ℚ :=
  round2 (rawTaxGE (bracketsOf filing_status) income)

/-- C9: `calculate_tax` has no jump at bracket edges: charging a
boundary income as the top of the lower band (what the code does) and as
the bottom of the upper band (the limit from above) give the same tax at
every income, and `calculate_tax 0` is `0.00` for every status. -/
theorem calculate_tax_boundary_continuity (fs : String) (inc : ℚ) :
    calculate_tax inc fs = calculate_tax_from_above inc fs ∧
      calculate_tax 0 fs = 0 := by
  constructor
  · unfold calculate_tax calculate_tax_from_above
    rw [rawTax_eq_rawTaxGE (bracketsOf fs) 0 inc (bracketsOf_ok fs).2]
  · unfold calculate_tax
    rw [rawTax_eq_rawTaxGE (bracketsOf fs) 0 0 (bracketsOf_ok fs).2,
      rawTaxGE_at_start (bracketsOf fs) 0 (bracketsOf_ok fs).2, round2_zero]

/-- C3: the full single-filer scenario: `compute_liability("single",
[60000], 8000)` returns total income 60000.00, standard deduction 14600,
taxable income 45400.00, federal tax owed 5295.50, withheld 8000.00, and
refund 2704.50. -/
theorem compute_liability_scenario_single :
    compute_liability "single" [60000] 8000 =
      ⟨60000, 14600, 45400, 5295.5, 8000, 2704.5⟩ := by
  have hcanon : canon "single" = "single" := by decide
  have hraw : rawTax (bracketsOf "single") 45400 = 5295.5 := by
    norm_num [bracketsOf, TAX_BRACKETS_2024, singleBrackets, rawTax]
  have htax : calculate_tax 45400 "single" = 5295.5 := by
    rw [calculate_tax, hraw]
    exact round2_eq_self 529550 (by norm_num)
  unfold compute_liability
  rw [hcanon]
  unfold liabilityCore
  simp only [List.sum_cons, List.sum_nil, TaxSummary.mk.injEq, add_zero]
  have hsd : (STANDARD_DEDUCTION "single").getD 14600 = 14600 := by
    simp [STANDARD_DEDUCTION]
  rw [hsd]
  have hti : max (0 : ℚ) (60000 - 14600) = 45400 := by norm_num
  rw [hti, htax]
  refine ⟨round2_eq_self 6000000 (by norm_num), rfl,
    round2_eq_self 4540000 (by norm_num),
    round2_eq_self 529550 (by norm_num),
    round2_eq_self 800000 (by norm_num), ?_⟩
  rw [show (8000 : ℚ) - 5295.5 = 2704.5 from by norm_num]
  exact round2_eq_self 270450 (by norm_num)

/-- Whether the (already canonicalised) status string is one of the four
known statuses. -/
def knownStatusB (fs : String) : Bool := (TAX_BRACKETS_2024 fs).isSome

theorem sd_none_of_unknown (c : String) (h : knownStatusB c = false) :
    STANDARD_DEDUCTION c = Option.none := by
  simp only [knownStatusB, TAX_BRACKETS_2024] at h
  simp only [STANDARD_DEDUCTION]
  split_ifs at h ⊢ <;> simp_all

theorem brackets_none_of_unknown (c : String) (h : knownStatusB c = false) :
    TAX_BRACKETS_2024 c = Option.none := by
  unfold knownStatusB at h
  cases hx : TAX_BRACKETS_2024 c with
  | none => rfl
  | some l => rw [hx] at h; simp at h

theorem liabilityCore_unknown (c : String) (h : knownStatusB c = false)
    (xs : List ℚ) (w : ℚ) :
    liabilityCore c xs w = liabilityCore "single" xs w := by
  have hb : TAX_BRACKETS_2024 c = Option.none := brackets_none_of_unknown c h
  have hsd : STANDARD_DEDUCTION c = Option.none := sd_none_of_unknown c h
  unfold liabilityCore calculate_tax bracketsOf
  rw [hb, hsd]
  simp [STANDARD_DEDUCTION, TAX_BRACKETS_2024]

/-- C4: `compute_liability` canonicalises the status string (lower-case,
spaces to underscores).  Any string whose canonical form is one of the
four known statuses uses that status's deduction and brackets
(`liabilityCore` of the canonical form); any other string yields exactly
the output for `"single"`. -/
theorem compute_liability_status_normalization (s : String) (xs : List ℚ)
    (w : ℚ) :
    (knownStatusB (canon s) = true →
        compute_liability s xs w = liabilityCore (canon s) xs w) ∧
    (knownStatusB (canon s) = false →
        compute_liability s xs w = compute_liability "single" xs w) := by
  constructor
  · intro _
    rfl
  · intro h
    unfold compute_liability
    rw [show canon "single" = "single" from by decide]
    exact liabilityCore_unknown (canon s) h xs w

/-- Witness for C4: `"foo"` does not canonicalise to a known status and
is treated exactly as `"single"`; `"Married Filing Jointly"` does. -/
theorem compute_liability_status_normalization_witness :
    knownStatusB (canon "foo") = false ∧
      compute_liability "foo" [60000] 8000 =
        compute_liability "single" [60000] 8000 ∧
    knownStatusB (canon "Married Filing Jointly") = true ∧
      compute_liability "Married Filing Jointly" [60000] 8000 =
        liabilityCore (canon "Married Filing Jointly") [60000] 8000 :=
  ⟨by decide,
   (compute_liability_status_normalization "foo" [60000] 8000).2 (by decide),
   by decide,
   (compute_liability_status_normalization "Married Filing Jointly" [60000]
      8000).1 (by decide)⟩

/-- C2 (amended): when the withheld input is a whole number of cents,
reconstructing the refund from the rounded stored fields
(`round2 (federalTaxWithheld − federalTaxOwed)`) equals the stored
`Refund or Balance Due`.  (For sub-cent withheld inputs the two can
differ by one cent, see `refund_reconstruction_cex`.) -/
theorem refund_reconstruction_cents (fs : String) (xs : List ℚ) (w : ℚ)
    (n : ℤ) (hw : w = (n : ℚ) / 100) :
    round2 ((compute_liability fs xs w).federalTaxWithheld -
        (compute_liability fs xs w).federalTaxOwed) =
      (compute_liability fs xs w).refundOrBalanceDue := by
  simp only [compute_liability, liabilityCore]
  exact round2_sub_round2 n hw (by unfold calculate_tax; exact round2_idem _)

/-- Witness for C2's amended statement at the single-filer scenario. -/
theorem refund_reconstruction_cents_witness :
    (8000 : ℚ) = ((800000 : ℤ) : ℚ) / 100 ∧
      round2 ((compute_liability "single" [60000] 8000).federalTaxWithheld -
          (compute_liability "single" [60000] 8000).federalTaxOwed) =
        (compute_liability "single" [60000] 8000).refundOrBalanceDue :=
  ⟨by norm_num,
   refund_reconstruction_cents "single" [60000] 8000 800000 (by norm_num)⟩

/-- C2 counterexample: with incomes `[14600.1]` (taxable income `0.10`,
tax owed `0.01`) and a sub-cent withheld input of `0.005`, the stored
refund is `round2 (0.005 − 0.01) = 0.00` while reconstructing from the
rounded stored fields gives `round2 (0.00 − 0.01) = −0.01` — the two
derivations of the refund disagree, refuting the claim for all inputs. -/
theorem refund_reconstruction_cex :
    round2 ((compute_liability "single" [14600 + 1/10] (1/200)).federalTaxWithheld -
        (compute_liability "single" [14600 + 1/10] (1/200)).federalTaxOwed) ≠
      (compute_liability "single" [14600 + 1/10] (1/200)).refundOrBalanceDue := by
  have hcanon : canon "single" = "single" := by decide
  have hraw : rawTax (bracketsOf "single") (1/10) = 1/100 := by
    norm_num [bracketsOf, TAX_BRACKETS_2024, singleBrackets, rawTax]
  have htax : calculate_tax (1/10) "single" = 1/100 := by
    rw [calculate_tax, hraw]
    exact round2_eq_self 1 (by norm_num)
  have hwh : round2 (1/200) = 0 := by
    unfold round2
    rw [show (1/200 : ℚ) * 100 = 1/2 from by norm_num, rhe_half]
    norm_num
  have href : round2 (1/200 - 1/100) = 0 := by
    unfold round2
    rw [show (1/200 - 1/100 : ℚ) * 100 = -(1/2) from by norm_num, rhe_neg_half]
    norm_num
  unfold compute_liability
  rw [hcanon]
  unfold liabilityCore
  simp only [List.sum_cons, List.sum_nil, add_zero]
  have hsd : (STANDARD_DEDUCTION "single").getD 14600 = 14600 := by
    simp [STANDARD_DEDUCTION]
  rw [hsd]
  have hti : max (0 : ℚ) (14600 + 1/10 - 14600) = 1/10 := by norm_num
  rw [hti, htax, hwh, href]
  have howed : round2 (1/100 : ℚ) = 1/100 := round2_eq_self 1 (by norm_num)
  rw [howed]
  have hrec : round2 ((0 : ℚ) - 1/100) = -(1/100) := by
    rw [show ((0 : ℚ) - 1/100) = ((-1 : ℤ) : ℚ) / 100 from by norm_num,
      round2_cent]
    norm_num
  rw [hrec]
  norm_num

/-- The rate of the first band of the bracket table used for a status. -/
def firstRate (fs : String) : ℚ :=
  match bracketsOf fs with
  | [] => 0
  | b :: _ => b.rate

/-- C10 (amended): `calculate_tax` performs no clamp: for every status
and every negative income it returns `round2 (income × first-band rate)`
with no error.  That value is strictly negative once
`income < −0.05`, but for tiny negative incomes it rounds to `0.00`
(see `calculate_tax_small_negative_cex`), so "strictly negative" does
not hold for all negative incomes. -/
theorem calculate_tax_negative_income (fs : String) (inc : ℚ)
    (h : inc < 0) :
    calculate_tax inc fs = round2 (inc * firstRate fs) ∧
      (inc < -(1/20) → calculate_tax inc fs < 0) := by
  obtain ⟨hb, rest, he, hpos⟩ := bracketsOf_shape fs
  have hfr : firstRate fs = 0.10 := by rw [firstRate, he]
  have hraw : rawTax (bracketsOf fs) inc = inc * 0.10 := by
    rw [he]
    simp only [rawTax]
    rw [if_neg (by linarith)]
    ring
  constructor
  · rw [calculate_tax, hraw, hfr]
  · intro h20
    rw [calculate_tax, hraw]
    apply round2_neg_of_lt
    rw [show (0.10 : ℚ) = 1/10 from by norm_num]
    linarith

/-- Witness for C10's amended statement at `inc = −1`, `fs = "single"`:
the tax is `round2 (−1 × 0.10) = −0.10 < 0`. -/
theorem calculate_tax_negative_income_witness :
    (-1 : ℚ) < 0 ∧
      calculate_tax (-1) "single" = round2 ((-1) * firstRate "single") ∧
      ((-1 : ℚ) < -(1/20) → calculate_tax (-1) "single" < 0) :=
  ⟨by norm_num,
   (calculate_tax_negative_income "single" (-1) (by norm_num)).1,
   (calculate_tax_negative_income "single" (-1) (by norm_num)).2⟩

/-- C10 counterexample: at income `−0.01` (status `"single"`) the code
returns `round2 (−0.001) = 0.00`, which is not strictly negative — the
claim's "a strictly negative value" fails for small negative incomes. -/
theorem calculate_tax_small_negative_cex :
    calculate_tax (-(1/100)) "single" = 0 := by
  have hraw : rawTax (bracketsOf "single") (-(1/100)) = -(1/1000) := by
    norm_num [bracketsOf, TAX_BRACKETS_2024, singleBrackets, rawTax]
  rw [calculate_tax, hraw]
  unfold round2
  rw [show (-(1/1000) : ℚ) * 100 = -(1/10) from by norm_num, rhe_neg_tenth]
  norm_num

/-- C8: the field normalizer is total (it is a Lean function, so it
never raises): a numeric value is returned as-is, a string that parses
as a numeric literal yields its value, and `None` (missing field), the
empty string, and any value on which `float` raises yield `0.0`. -/
theorem to_float_spec (v : PyVal) (s : String) (q : ℚ) :
    (pyFloat (PyVal.str s) = some q → to_float (PyVal.str s) = q) ∧
    to_float (PyVal.num q) = q ∧
    to_float PyVal.null = 0 ∧
    to_float (PyVal.str "") = 0 ∧
    (pyFloat v = Option.none → to_float v = 0) := by
  refine ⟨?_, rfl, rfl, rfl, ?_⟩
  · intro h
    show (pyFloat (PyVal.str s)).getD 0 = q
    rw [h]
    rfl
  · intro h
    cases v with
    | null => rfl
    | num q' => simp [pyFloat] at h
    | str s' =>
      show (pyFloat (PyVal.str s')).getD 0 = 0
      rw [h]
      rfl
    | obj => rfl

/-- Witness for C8: `"3.5"` parses to `3.5`; a numeric `2` passes
through; `obj` (a value `float` rejects) yields `0`. -/
theorem to_float_spec_witness :
    pyFloat (PyVal.str "3.5") = some (7/2 : ℚ) ∧
      to_float (PyVal.str "3.5") = 7/2 ∧
      to_float (PyVal.num 2) = 2 ∧
      to_float PyVal.obj = 0 := by
  have hp : pyFloat (PyVal.str "3.5") = some (7/2 : ℚ) := by
    have h2 : pyFloat (PyVal.str "3.5") =
        some ((digitsVal ['3'] : ℚ) + (digitsVal ['5'] : ℚ) / 10 ^ 1) := rfl
    rw [h2, show digitsVal ['3'] = 3 from by decide,
      show digitsVal ['5'] = 5 from by decide]
    norm_num
  exact ⟨hp, (to_float_spec PyVal.obj "3.5" (7/2)).1 hp,
    (to_float_spec PyVal.obj "3.5" 2).2.1,
    (to_float_spec PyVal.obj "3.5" (7/2)).2.2.2.2 rfl⟩
